import Mathlib

/-!
Shallow embedding of `model-optimizer/extensions/ops/embedding_bag.py`:
shape inference for the three embedding-bag operators
(`EmbeddingBagOffsetsSum`, `EmbeddingBagPackedSum`, `EmbeddingSegmentsSum`).

Shapes are modelled as lists of dimensions, a dimension being either a
known non-negative integer or the masked/unknown marker of the numpy
masked arrays the source uses.  Each `infer` static method is modelled as
a function from a node (its list of input ports) to `Except`: the typed
error constructors correspond to the assertion failures of the source
(`missingRequiredInput`, `rankTooLow`, `invalidOffsetsRank`,
`shapeMismatch`, `requiresConstant`), while `untypedException` marks the
places where the source would raise a non-assertion exception, namely
calling `len` or slicing on a `None` shape.
-/

/-- A tensor dimension: a known extent or the masked (unknown) marker. -/
inductive Dim where
  | known : Nat → Dim
  | unknown : Dim
deriving DecidableEq

/-- A shape is an ordered list of dimensions; rank is its length. -/
abbrev Shape := List Dim

/-- One input port of a node: its connection state, the shape produced by
its upstream producer (absent when not yet inferred), and the constant
value carried by the port when the producer has been constant-folded. -/
structure InPort where
  connected : Bool
  shape : Option Shape
  value : Option Nat
deriving DecidableEq

/-- A node, reduced to what the embedding-bag inference reads: the ordered
list of its declared input ports. -/
abbrev Node := List InPort

/-- Errors of an inference call.  The first five mirror the assertion
messages of the source (as typed in the error taxonomy); `untypedException`
marks a raw Python exception (such as `len(None)`), which is not an
assertion failure. -/
inductive InferenceError where
  | missingRequiredInput : List Nat → InferenceError
  | rankTooLow : InferenceError
  | invalidOffsetsRank : InferenceError
  | shapeMismatch : InferenceError
  | requiresConstant : InferenceError
  | untypedException : InferenceError
deriving DecidableEq

/-- Whether an error belongs to the typed taxonomy (assertion-backed
errors); `untypedException` does not. -/
def InferenceError.isTyped : InferenceError → Bool
  | .untypedException => false
  | _ => true

/-- `node.in_port(i)`: out-of-range ports read as disconnected and empty. -/
def getPort (node : Node) (i : Nat) : InPort :=
  (node.get? i).getD ⟨false, none, none⟩

/-- `i in connected_in_ports`: port `i` exists and is not disconnected. -/
def portConnected (node : Node) (i : Nat) : Bool :=
  (getPort node i).connected

/-- `len(connected_in_ports)`: number of connected declared ports. -/
def connectedCount (node : Node) : Nat :=
  (List.range node.length).countP (fun i => portConnected node i)

/-- The connectivity assertion shared by the variants:
`len(connected_in_ports) >= k and all(p in connected_in_ports for p in mandatory)`. -/
def mandatoryOK (node : Node) (k : Nat) (mandatory : List Nat) : Bool :=
  decide (k ≤ connectedCount node) && mandatory.all (fun p => portConnected node p)

/-- Elementwise comparison of two dimensions as numpy masked arrays
compare: a comparison touching a masked (unknown) entry is not true. -/
def dimEq : Dim → Dim → Bool
  | .known a, .known b => a == b
  | _, _ => false

/-- `a == b` on two shape arrays, coerced to a single boolean as the
source assertion does: same length and all entries compare equal. -/
def shapeEq (a b : Shape) : Bool :=
  a.length == b.length && (List.zip a b).all (fun p => dimEq p.1 p.2)

/-- `EmbeddingBagOffsetsSum.infer`.  Mandatory ports {0, 1, 2}; weights
(port 0) must have rank >= 2; offsets (port 2) must be present and rank 1;
output = `np.ma.concatenate((offsets_shape[:1], weights_shape[1:]))`. -/
def EmbeddingBagOffsetsSum.infer (node : Node) : Except InferenceError Shape :=
  if mandatoryOK node 3 [0, 1, 2] then
    match (getPort node 0).shape with
    | none => .error .untypedException
    | some weights_shape =>
      if 2 ≤ weights_shape.length then
        match (getPort node 2).shape with
        | none => .error .invalidOffsetsRank
        | some offsets_shape =>
          if offsets_shape.length = 1 then
            .ok (offsets_shape.take 1 ++ weights_shape.drop 1)
          else .error .invalidOffsetsRank
      else .error .rankTooLow
  else .error (.missingRequiredInput [0, 1, 2])

/-- `EmbeddingBagPackedSum.infer`.  Mandatory ports {0, 1}; weights must
have rank >= 2; no rank condition on the indices shape beyond being
present; output = `np.ma.concatenate((input_shape[:1], weights_shape[1:]))`. -/
def EmbeddingBagPackedSum.infer (node : Node) : Except InferenceError Shape :=
  if mandatoryOK node 2 [0, 1] then
    match (getPort node 0).shape with
    | none => .error .untypedException
    | some weights_shape =>
      if 2 ≤ weights_shape.length then
        match (getPort node 1).shape with
        | none => .error .untypedException
        | some input_shape =>
          .ok (input_shape.take 1 ++ weights_shape.drop 1)
      else .error .rankTooLow
  else .error (.missingRequiredInput [0, 1])

/-- `EmbeddingSegmentsSum.infer`.  Mandatory ports {0, 1, 2, 3}; weights
rank >= 2; indices and segment_ids both rank 1 with equal contents
(the assertion short-circuits: a non-rank-1 indices shape fails before
`segment_ids` is measured); `num_segments` (port 3) must carry a constant;
output = `np.ma.concatenate(([num_segments], weights_shape[1:]))`. -/
def EmbeddingSegmentsSum.infer (node : Node) : Except InferenceError Shape :=
  if mandatoryOK node 4 [0, 1, 2, 3] then
    match (getPort node 0).shape with
    | none => .error .untypedException
    | some weights_shape =>
      if 2 ≤ weights_shape.length then
        match (getPort node 1).shape with
        | none => .error .untypedException
        | some indices_shape =>
          if indices_shape.length = 1 then
            match (getPort node 2).shape with
            | none => .error .untypedException
            | some segment_ids =>
              if segment_ids.length = 1 && shapeEq indices_shape segment_ids then
                match (getPort node 3).value with
                | none => .error .requiresConstant
                | some num_segments =>
                  .ok (Dim.known num_segments :: weights_shape.drop 1)
              else .error .shapeMismatch
          else .error .shapeMismatch
      else .error .rankTooLow
  else .error (.missingRequiredInput [0, 1, 2, 3])

/-- The closed set of operator variants. -/
inductive Variant where
  | offsetsSum
  | packedSum
  | segmentsSum
deriving DecidableEq

/-- Mandatory input ports of each variant. -/
def mandatoryPorts : Variant → List Nat
  | .offsetsSum => [0, 1, 2]
  | .packedSum => [0, 1]
  | .segmentsSum => [0, 1, 2, 3]

/-- Dispatch of a node to its variant rule. -/
def inferVariant : Variant → Node → Except InferenceError Shape
  | .offsetsSum => EmbeddingBagOffsetsSum.infer
  | .packedSum => EmbeddingBagPackedSum.infer
  | .segmentsSum => EmbeddingSegmentsSum.infer

/- ### Helper lemmas -/

lemma portConnected_lt (node : Node) (p : Nat) (h : portConnected node p = true) :
    p < node.length := by
  by_contra hlt
  push_neg at hlt
  have hnone : node[p]? = none := List.getElem?_eq_none hlt
  simp [portConnected, getPort, List.get?_eq_getElem?, hnone] at h

lemma le_connectedCount (node : Node) (k : Nat)
    (h : ∀ p, p < k → portConnected node p = true) : k ≤ connectedCount node := by
  rcases Nat.eq_zero_or_pos k with hk | hk
  · simp [hk]
  · have hlen : k ≤ node.length := by
      have := portConnected_lt node (k - 1) (h (k - 1) (by omega))
      omega
    have hsub : List.Sublist (List.range k) (List.range node.length) :=
      List.range_sublist.mpr hlen
    have h1 : (List.range k).countP (fun i => portConnected node i) = k := by
      rw [List.countP_eq_length.mpr]
      · exact List.length_range k
      · intro a ha
        simpa using h a (List.mem_range.mp ha)
    calc k = (List.range k).countP (fun i => portConnected node i) := h1.symm
      _ ≤ connectedCount node := hsub.countP_le _

lemma mandatoryOK_offsets (node : Node)
    (h0 : portConnected node 0 = true) (h1 : portConnected node 1 = true)
    (h2 : portConnected node 2 = true) : mandatoryOK node 3 [0, 1, 2] = true := by
  have hc : 3 ≤ connectedCount node := by
    apply le_connectedCount
    intro p hp
    interval_cases p <;> assumption
  simp [mandatoryOK, hc, h0, h1, h2]

lemma mandatoryOK_packed (node : Node)
    (h0 : portConnected node 0 = true) (h1 : portConnected node 1 = true) :
    mandatoryOK node 2 [0, 1] = true := by
  have hc : 2 ≤ connectedCount node := by
    apply le_connectedCount
    intro p hp
    interval_cases p <;> assumption
  simp [mandatoryOK, hc, h0, h1]

lemma mandatoryOK_segments (node : Node)
    (h0 : portConnected node 0 = true) (h1 : portConnected node 1 = true)
    (h2 : portConnected node 2 = true) (h3 : portConnected node 3 = true) :
    mandatoryOK node 4 [0, 1, 2, 3] = true := by
  have hc : 4 ≤ connectedCount node := by
    apply le_connectedCount
    intro p hp
    interval_cases p <;> assumption
  simp [mandatoryOK, hc, h0, h1, h2, h3]

/- ### Concrete nodes used by witnesses and counterexamples -/

/-- OffsetsSum node: weights [1000, 64], indices [10], offsets [7]. -/
def nodeOffsetsValid : Node :=
  [⟨true, some [Dim.known 1000, Dim.known 64], none⟩,
   ⟨true, some [Dim.known 10], none⟩,
   ⟨true, some [Dim.known 7], none⟩]

/-- C1: for every valid OffsetsSum input (ports 0, 1, 2 connected, weights
rank >= 2, offsets rank 1), the output shape is the concatenation of the
leading offsets dimension with the weights dimensions after the first, and
its rank equals the rank of the weights. -/
theorem offsetsSum_valid_output (node : Node) (weights offsets : Shape)
    (h0 : portConnected node 0 = true) (h1 : portConnected node 1 = true)
    (h2 : portConnected node 2 = true)
    (hw : (getPort node 0).shape = some weights) (hwr : 2 ≤ weights.length)
    (ho : (getPort node 2).shape = some offsets) (hor : offsets.length = 1) :
    EmbeddingBagOffsetsSum.infer node =
      Except.ok (offsets.take 1 ++ weights.drop 1) ∧
    (offsets.take 1 ++ weights.drop 1).length = weights.length := by
  have hm := mandatoryOK_offsets node h0 h1 h2
  constructor
  · simp [EmbeddingBagOffsetsSum.infer, hm, hw, hwr, ho, hor]
  · simp [List.length_take, List.length_drop, hor]
    omega

/-- C1 witness: weights [1000, 64] with offsets [7] yields output [7, 64],
whose rank equals the weights rank. -/
theorem offsetsSum_valid_output_witness :
    EmbeddingBagOffsetsSum.infer nodeOffsetsValid =
      Except.ok [Dim.known 7, Dim.known 64] ∧
    ([Dim.known 7, Dim.known 64] : Shape).length = 2 := by
  have h := offsetsSum_valid_output nodeOffsetsValid
    [Dim.known 1000, Dim.known 64] [Dim.known 7]
    rfl rfl rfl rfl (by decide) rfl rfl
  exact ⟨h.1, rfl⟩

/-- PackedSum node: weights [1000, 64], indices [4, 3]. -/
def nodePackedValid : Node :=
  [⟨true, some [Dim.known 1000, Dim.known 64], none⟩,
   ⟨true, some [Dim.known 4, Dim.known 3], none⟩]

/-- PackedSum node with a rank-0 (scalar) indices shape. -/
def nodePackedRank0 : Node :=
  [⟨true, some [Dim.known 1000, Dim.known 64], none⟩,
   ⟨true, some [], none⟩]

/-- C2 counterexample: a PackedSum input that is valid in the claim's
sense (ports 0 and 1 connected, weights shape [1000, 64] of rank 2,
indices shape present) but whose indices shape has rank 0, so that the
derived output is [64] and its leading entry is not the (non-existent)
leading entry of the indices shape. -/
theorem packedSum_rank0_counterexample :
    portConnected nodePackedRank0 0 = true ∧
    portConnected nodePackedRank0 1 = true ∧
    (getPort nodePackedRank0 0).shape = some [Dim.known 1000, Dim.known 64] ∧
    (getPort nodePackedRank0 1).shape = some [] ∧
    EmbeddingBagPackedSum.infer nodePackedRank0 = Except.ok [Dim.known 64] ∧
    ([Dim.known 64] : Shape).get? 0 ≠ (([] : Shape)).get? 0 := by
  refine ⟨rfl, rfl, rfl, rfl, rfl, by decide⟩

/-- C2 (amended): for every valid PackedSum input whose indices shape
additionally has rank >= 1, the output is the concatenation of the first
dimension of the indices shape with the weights dimensions after the
first, so output[0] = indices_shape[0] and output[1:] = weights_shape[1:]. -/
theorem packedSum_valid_output (node : Node) (weights indices : Shape)
    (h0 : portConnected node 0 = true) (h1 : portConnected node 1 = true)
    (hw : (getPort node 0).shape = some weights) (hwr : 2 ≤ weights.length)
    (hi : (getPort node 1).shape = some indices) (hir : 1 ≤ indices.length) :
    EmbeddingBagPackedSum.infer node =
      Except.ok (indices.take 1 ++ weights.drop 1) ∧
    (indices.take 1 ++ weights.drop 1).get? 0 = indices.get? 0 ∧
    (indices.take 1 ++ weights.drop 1).drop 1 = weights.drop 1 := by
  have hm := mandatoryOK_packed node h0 h1
  have hlen : (indices.take 1).length = 1 := by
    simp [List.length_take]
    omega
  refine ⟨?_, ?_, ?_⟩
  · simp [EmbeddingBagPackedSum.infer, hm, hw, hwr, hi]
  · rw [List.get?_append (by omega)]
    exact List.get?_take (by omega)
  · have := List.drop_left (indices.take 1) (weights.drop 1)
    rwa [hlen] at this

/-- C2 witness: weights [1000, 64] with indices [4, 3] yields output
[4, 64], with output[0] = 4 and output[1:] = [64]. -/
theorem packedSum_valid_output_witness :
    EmbeddingBagPackedSum.infer nodePackedValid =
      Except.ok [Dim.known 4, Dim.known 64] ∧
    ([Dim.known 4, Dim.known 64] : Shape).get? 0 = some (Dim.known 4) := by
  have h := packedSum_valid_output nodePackedValid
    [Dim.known 1000, Dim.known 64] [Dim.known 4, Dim.known 3]
    rfl rfl rfl (by decide) rfl (by decide)
  exact ⟨h.1, rfl⟩

/-- SegmentsSum node: weights [1000, 64], indices [10], segment_ids [10],
num_segments constant 5. -/
def nodeSegmentsValid : Node :=
  [⟨true, some [Dim.known 1000, Dim.known 64], none⟩,
   ⟨true, some [Dim.known 10], none⟩,
   ⟨true, some [Dim.known 10], none⟩,
   ⟨true, some [], some 5⟩]

/-- C3: for every valid SegmentsSum input (ports 0-3 connected, weights
rank >= 2, indices and segment_ids rank 1 and equal, num_segments a
resolved constant), the output is [value(num_segments)] concatenated with
the weights dimensions after the first, its leading dimension being
exactly the constant value. -/
theorem segmentsSum_valid_output (node : Node) (weights indices segs : Shape) (v : Nat)
    (h0 : portConnected node 0 = true) (h1 : portConnected node 1 = true)
    (h2 : portConnected node 2 = true) (h3 : portConnected node 3 = true)
    (hw : (getPort node 0).shape = some weights) (hwr : 2 ≤ weights.length)
    (hi : (getPort node 1).shape = some indices) (hil : indices.length = 1)
    (hs : (getPort node 2).shape = some segs) (hsl : segs.length = 1)
    (heq : shapeEq indices segs = true)
    (hv : (getPort node 3).value = some v) :
    EmbeddingSegmentsSum.infer node =
      Except.ok (Dim.known v :: weights.drop 1) ∧
    (Dim.known v :: weights.drop 1).get? 0 = some (Dim.known v) := by
  have hm := mandatoryOK_segments node h0 h1 h2 h3
  refine ⟨?_, rfl⟩
  simp [EmbeddingSegmentsSum.infer, hm, hw, hwr, hi, hil, hs, hsl, heq, hv]

/-- C3 witness: weights [1000, 64], indices [10], segment_ids [10],
num_segments 5 yields output [5, 64] with leading dimension 5. -/
theorem segmentsSum_valid_output_witness :
    EmbeddingSegmentsSum.infer nodeSegmentsValid =
      Except.ok [Dim.known 5, Dim.known 64] ∧
    ([Dim.known 5, Dim.known 64] : Shape).get? 0 = some (Dim.known 5) := by
  have h := segmentsSum_valid_output nodeSegmentsValid
    [Dim.known 1000, Dim.known 64] [Dim.known 10] [Dim.known 10] 5
    rfl rfl rfl rfl rfl (by decide) rfl rfl rfl rfl (by decide) rfl
  exact ⟨h.1, rfl⟩

lemma mandatoryOK_false_of_missing (node : Node) (k : Nat) (mandatory : List Nat)
    (p : Nat) (hp : p ∈ mandatory) (hpc : portConnected node p = false) :
    mandatoryOK node k mandatory = false := by
  have hall : mandatory.all (fun q => portConnected node q) = false := by
    cases hcase : mandatory.all (fun q => portConnected node q) with
    | false => rfl
    | true =>
      have := List.all_eq_true.mp hcase p hp
      rw [hpc] at this
      cases this
  unfold mandatoryOK
  rw [hall, Bool.and_false]

/-- C5: for every variant, disconnecting any mandatory input port makes
infer fail with a MissingRequiredInput error carrying that variant's exact
mandatory port set, and no output shape is derived. -/
theorem missing_mandatory_port (v : Variant) (node : Node) (p : Nat)
    (hp : p ∈ mandatoryPorts v) (hpc : portConnected node p = false) :
    inferVariant v node =
      Except.error (InferenceError.missingRequiredInput (mandatoryPorts v)) := by
  cases v with
  | offsetsSum =>
    have hm := mandatoryOK_false_of_missing node 3 [0, 1, 2] p hp hpc
    simp [inferVariant, EmbeddingBagOffsetsSum.infer, hm, mandatoryPorts]
  | packedSum =>
    have hm := mandatoryOK_false_of_missing node 2 [0, 1] p hp hpc
    simp [inferVariant, EmbeddingBagPackedSum.infer, hm, mandatoryPorts]
  | segmentsSum =>
    have hm := mandatoryOK_false_of_missing node 4 [0, 1, 2, 3] p hp hpc
    simp [inferVariant, EmbeddingSegmentsSum.infer, hm, mandatoryPorts]

/-- Node for C5 witness: an OffsetsSum node whose offsets port (2) is
disconnected. -/
def nodeOffsetsNoPort2 : Node :=
  [⟨true, some [Dim.known 1000, Dim.known 64], none⟩,
   ⟨true, some [Dim.known 10], none⟩,
   ⟨false, none, none⟩]

/-- C5 witness: disconnecting port 2 of an OffsetsSum node yields
MissingRequiredInput with port set [0, 1, 2]. -/
theorem missing_mandatory_port_witness :
    inferVariant Variant.offsetsSum nodeOffsetsNoPort2 =
      Except.error (InferenceError.missingRequiredInput [0, 1, 2]) :=
  missing_mandatory_port Variant.offsetsSum nodeOffsetsNoPort2 2 (by decide) rfl

/-- C6: for every variant, a present weights shape of rank < 2 makes infer
fail with RankTooLow, deriving no output shape. -/
theorem weights_rank_too_low (v : Variant) (node : Node) (weights : Shape)
    (hconn : ∀ p, p ∈ mandatoryPorts v → portConnected node p = true)
    (hw : (getPort node 0).shape = some weights) (hr : weights.length < 2) :
    inferVariant v node = Except.error InferenceError.rankTooLow := by
  have hr' : ¬ 2 ≤ weights.length := by omega
  cases v with
  | offsetsSum =>
    have hm := mandatoryOK_offsets node (hconn 0 (by decide)) (hconn 1 (by decide))
      (hconn 2 (by decide))
    simp [inferVariant, EmbeddingBagOffsetsSum.infer, hm, hw, hr']
  | packedSum =>
    have hm := mandatoryOK_packed node (hconn 0 (by decide)) (hconn 1 (by decide))
    simp [inferVariant, EmbeddingBagPackedSum.infer, hm, hw, hr']
  | segmentsSum =>
    have hm := mandatoryOK_segments node (hconn 0 (by decide)) (hconn 1 (by decide))
      (hconn 2 (by decide)) (hconn 3 (by decide))
    simp [inferVariant, EmbeddingSegmentsSum.infer, hm, hw, hr']

/-- Node for C6 witness: an OffsetsSum node with rank-1 weights [1000]. -/
def nodeOffsetsRank1Weights : Node :=
  [⟨true, some [Dim.known 1000], none⟩,
   ⟨true, some [Dim.known 10], none⟩,
   ⟨true, some [Dim.known 7], none⟩]

/-- C6 witness: an OffsetsSum node with weights shape [1000] fails with
RankTooLow. -/
theorem weights_rank_too_low_witness :
    inferVariant Variant.offsetsSum nodeOffsetsRank1Weights =
      Except.error InferenceError.rankTooLow :=
  weights_rank_too_low Variant.offsetsSum nodeOffsetsRank1Weights [Dim.known 1000]
    (by decide) rfl (by decide)

/-- C7: for SegmentsSum, when the indices and segment_ids shapes are both
present but are not both rank 1 with elementwise equal contents, infer
fails with a ShapeMismatch error. -/
theorem segmentsSum_shape_mismatch (node : Node) (weights indices segs : Shape)
    (h0 : portConnected node 0 = true) (h1 : portConnected node 1 = true)
    (h2 : portConnected node 2 = true) (h3 : portConnected node 3 = true)
    (hw : (getPort node 0).shape = some weights) (hwr : 2 ≤ weights.length)
    (hi : (getPort node 1).shape = some indices)
    (hs : (getPort node 2).shape = some segs)
    (hbad : ¬ (indices.length = 1 ∧ segs.length = 1 ∧ shapeEq indices segs = true)) :
    EmbeddingSegmentsSum.infer node = Except.error InferenceError.shapeMismatch := by
  have hm := mandatoryOK_segments node h0 h1 h2 h3
  by_cases hil : indices.length = 1
  · have hrest : (segs.length = 1 && shapeEq indices segs) = false := by
      cases hcase : (segs.length = 1 : Bool) <;>
        cases hcase2 : shapeEq indices segs <;>
          simp_all
    simp [EmbeddingSegmentsSum.infer, hm, hw, hwr, hi, hil, hs, hrest]
  · simp [EmbeddingSegmentsSum.infer, hm, hw, hwr, hi, hil]

/-- Node for C7 witness: SegmentsSum with indices [10] and segment_ids [9]. -/
def nodeSegmentsMismatch : Node :=
  [⟨true, some [Dim.known 1000, Dim.known 64], none⟩,
   ⟨true, some [Dim.known 10], none⟩,
   ⟨true, some [Dim.known 9], none⟩,
   ⟨true, some [], some 5⟩]

/-- C7 witness: indices shape [10] with segment_ids shape [9], both rank 1,
fails with ShapeMismatch. -/
theorem segmentsSum_shape_mismatch_witness :
    EmbeddingSegmentsSum.infer nodeSegmentsMismatch =
      Except.error InferenceError.shapeMismatch :=
  segmentsSum_shape_mismatch nodeSegmentsMismatch
    [Dim.known 1000, Dim.known 64] [Dim.known 10] [Dim.known 9]
    rfl rfl rfl rfl rfl (by decide) rfl rfl (by decide)

/-- C8: for SegmentsSum, when all shape validations pass but the
num_segments port carries no resolved constant value, infer fails with a
RequiresConstant error and derives no output shape. -/
theorem segmentsSum_requires_constant (node : Node) (weights indices segs : Shape)
    (h0 : portConnected node 0 = true) (h1 : portConnected node 1 = true)
    (h2 : portConnected node 2 = true) (h3 : portConnected node 3 = true)
    (hw : (getPort node 0).shape = some weights) (hwr : 2 ≤ weights.length)
    (hi : (getPort node 1).shape = some indices) (hil : indices.length = 1)
    (hs : (getPort node 2).shape = some segs) (hsl : segs.length = 1)
    (heq : shapeEq indices segs = true)
    (hv : (getPort node 3).value = none) :
    EmbeddingSegmentsSum.infer node = Except.error InferenceError.requiresConstant := by
  have hm := mandatoryOK_segments node h0 h1 h2 h3
  simp [EmbeddingSegmentsSum.infer, hm, hw, hwr, hi, hil, hs, hsl, heq, hv]

/-- Node for C8 witness: SegmentsSum whose num_segments port is connected
but carries no constant. -/
def nodeSegmentsNoConst : Node :=
  [⟨true, some [Dim.known 1000, Dim.known 64], none⟩,
   ⟨true, some [Dim.known 10], none⟩,
   ⟨true, some [Dim.known 10], none⟩,
   ⟨true, some [], none⟩]

/-- C8 witness: a connected num_segments port without a resolved constant
fails with RequiresConstant. -/
theorem segmentsSum_requires_constant_witness :
    EmbeddingSegmentsSum.infer nodeSegmentsNoConst =
      Except.error InferenceError.requiresConstant :=
  segmentsSum_requires_constant nodeSegmentsNoConst
    [Dim.known 1000, Dim.known 64] [Dim.known 10] [Dim.known 10]
    rfl rfl rfl rfl rfl (by decide) rfl rfl rfl rfl (by decide) rfl

/-- C9: PackedSum places no rank condition on the indices shape: under the
connectivity and weights-rank preconditions, any present indices shape
(of any rank, including 0) yields a derived output, and an absent indices
shape is the only indices-related condition preventing derivation. -/
theorem packedSum_no_indices_rank_check (node : Node) (weights : Shape)
    (h0 : portConnected node 0 = true) (h1 : portConnected node 1 = true)
    (hw : (getPort node 0).shape = some weights) (hwr : 2 ≤ weights.length) :
    (∀ indices : Shape, (getPort node 1).shape = some indices →
      EmbeddingBagPackedSum.infer node =
        Except.ok (indices.take 1 ++ weights.drop 1)) ∧
    ((getPort node 1).shape = none →
      EmbeddingBagPackedSum.infer node =
        Except.error InferenceError.untypedException) := by
  have hm := mandatoryOK_packed node h0 h1
  constructor
  · intro indices hi
    simp [EmbeddingBagPackedSum.infer, hm, hw, hwr, hi]
  · intro hi
    simp [EmbeddingBagPackedSum.infer, hm, hw, hwr, hi]

/-- C9 witness: the rank-0 indices node derives output [64] and raises no
error. -/
theorem packedSum_no_indices_rank_check_witness :
    EmbeddingBagPackedSum.infer nodePackedRank0 = Except.ok [Dim.known 64] :=
  (packedSum_no_indices_rank_check nodePackedRank0
    [Dim.known 1000, Dim.known 64] rfl rfl rfl (by decide)).1 [] rfl

/-- C10: for every variant, when the weights port is connected (all
mandatory ports are) but its shape is absent, infer fails with the untyped
exception (the rank check is applied to the missing shape), which is not
one of the typed taxonomy errors, and no output shape is written. -/
theorem weights_shape_absent_untyped (v : Variant) (node : Node)
    (hconn : ∀ p, p ∈ mandatoryPorts v → portConnected node p = true)
    (hw : (getPort node 0).shape = none) :
    inferVariant v node = Except.error InferenceError.untypedException ∧
    InferenceError.untypedException.isTyped = false := by
  refine ⟨?_, rfl⟩
  cases v with
  | offsetsSum =>
    have hm := mandatoryOK_offsets node (hconn 0 (by decide)) (hconn 1 (by decide))
      (hconn 2 (by decide))
    simp [inferVariant, EmbeddingBagOffsetsSum.infer, hm, hw]
  | packedSum =>
    have hm := mandatoryOK_packed node (hconn 0 (by decide)) (hconn 1 (by decide))
    simp [inferVariant, EmbeddingBagPackedSum.infer, hm, hw]
  | segmentsSum =>
    have hm := mandatoryOK_segments node (hconn 0 (by decide)) (hconn 1 (by decide))
      (hconn 2 (by decide)) (hconn 3 (by decide))
    simp [inferVariant, EmbeddingSegmentsSum.infer, hm, hw]

/-- Node for C10 witness: an OffsetsSum node whose weights port is
connected but has no shape yet. -/
def nodeOffsetsNoWeightsShape : Node :=
  [⟨true, none, none⟩,
   ⟨true, some [Dim.known 10], none⟩,
   ⟨true, some [Dim.known 7], none⟩]

/-- C10 witness: a connected weights port with an absent shape makes the
OffsetsSum rule fail with the untyped exception. -/
theorem weights_shape_absent_untyped_witness :
    inferVariant Variant.offsetsSum nodeOffsetsNoWeightsShape =
      Except.error InferenceError.untypedException ∧
    InferenceError.untypedException.isTyped = false :=
  weights_shape_absent_untyped Variant.offsetsSum nodeOffsetsNoWeightsShape
    (by decide) rfl

lemma offsetsSum_ok_inv (node : Node) (out : Shape)
    (h : EmbeddingBagOffsetsSum.infer node = Except.ok out) :
    ∃ weights offsets : Shape,
      (getPort node 0).shape = some weights ∧ 2 ≤ weights.length ∧
      (getPort node 2).shape = some offsets ∧ offsets.length = 1 ∧
      out = offsets.take 1 ++ weights.drop 1 := by
  unfold EmbeddingBagOffsetsSum.infer at h
  split at h
  · split at h
    · cases h
    · next weights hw =>
      split at h
      · split at h
        · cases h
        · next offsets ho =>
          split at h
          · exact ⟨weights, offsets, hw, by assumption, ho, by assumption,
              (Except.ok.injEq _ _).mp h |>.symm⟩
          · cases h
      · cases h
  · cases h

lemma packedSum_ok_inv (node : Node) (out : Shape)
    (h : EmbeddingBagPackedSum.infer node = Except.ok out) :
    ∃ weights indices : Shape,
      (getPort node 0).shape = some weights ∧ 2 ≤ weights.length ∧
      (getPort node 1).shape = some indices ∧
      out = indices.take 1 ++ weights.drop 1 := by
  unfold EmbeddingBagPackedSum.infer at h
  split at h
  · split at h
    · cases h
    · next weights hw =>
      split at h
      · split at h
        · cases h
        · next indices hi =>
          exact ⟨weights, indices, hw, by assumption, hi,
            (Except.ok.injEq _ _).mp h |>.symm⟩
      · cases h
  · cases h

lemma segmentsSum_ok_inv (node : Node) (out : Shape)
    (h : EmbeddingSegmentsSum.infer node = Except.ok out) :
    ∃ (weights : Shape) (v : Nat),
      (getPort node 0).shape = some weights ∧ 2 ≤ weights.length ∧
      (getPort node 3).value = some v ∧
      out = Dim.known v :: weights.drop 1 := by
  unfold EmbeddingSegmentsSum.infer at h
  split at h
  · split at h
    · cases h
    · next weights hw =>
      split at h
      · split at h
        · cases h
        · next indices hi =>
          split at h
          · split at h
            · cases h
            · next segs hs =>
              split at h
              · split at h
                · cases h
                · next v hv =>
                  exact ⟨weights, v, hw, by assumption, hv,
                    (Except.ok.injEq _ _).mp h |>.symm⟩
              · cases h
          · cases h
      · cases h
  · cases h

lemma get?_lead_append (lead weights : Shape) (hl : lead.length = 1)
    (j : Nat) (hj : 1 ≤ j) :
    (lead ++ weights.drop 1).get? j = weights.get? j := by
  rw [List.get?_append_right (by omega), hl, List.get?_drop]
  congr 1
  omega

/-- PackedSum node with a rank-0 indices shape and an unknown trailing
weights dimension. -/
def nodePackedRank0Unknown : Node :=
  [⟨true, some [Dim.known 1000, Dim.unknown], none⟩,
   ⟨true, some [], none⟩]

/-- C4 counterexample: a PackedSum input on which infer succeeds (rank-0
indices shape, accepted by the source) where the unknown weights
dimension 1 does not appear at output position 1: the output is the
single-dimension shape [unknown], so position 1 is empty — the unknown
dimension landed, still unknown, one position earlier. -/
theorem unknown_dim_shift_counterexample :
    EmbeddingBagPackedSum.infer nodePackedRank0Unknown =
      Except.ok [Dim.unknown] ∧
    ([Dim.known 1000, Dim.unknown] : Shape).get? 1 = some Dim.unknown ∧
    ([Dim.unknown] : Shape).get? 1 ≠ some Dim.unknown ∧
    ([Dim.unknown] : Shape).get? 0 = some Dim.unknown := by
  refine ⟨rfl, rfl, by decide, rfl⟩

/-- C4 (amended): for every variant, on every input on which infer
succeeds, each input dimension that flows into the output that is unknown
appears as unknown in the output, never replaced by a guessed value.  For
OffsetsSum and SegmentsSum, and for PackedSum with an indices shape of
rank >= 1, positions correspond one-to-one (leading offsets/indices
dimension at output position 0, weights dimension j at output position
j); for PackedSum with a rank-0 indices shape the empty leading slice
shifts each unknown weights dimension j to output position j - 1, still
unknown. -/
theorem unknown_dimension_propagation :
    (∀ (node : Node) (out weights offsets : Shape),
      EmbeddingBagOffsetsSum.infer node = Except.ok out →
      (getPort node 0).shape = some weights →
      (getPort node 2).shape = some offsets →
      (offsets.get? 0 = some Dim.unknown → out.get? 0 = some Dim.unknown) ∧
      (∀ j, 1 ≤ j → weights.get? j = some Dim.unknown →
        out.get? j = some Dim.unknown)) ∧
    (∀ (node : Node) (out weights indices : Shape),
      EmbeddingBagPackedSum.infer node = Except.ok out →
      (getPort node 0).shape = some weights →
      (getPort node 1).shape = some indices →
      (1 ≤ indices.length →
        (indices.get? 0 = some Dim.unknown → out.get? 0 = some Dim.unknown) ∧
        (∀ j, 1 ≤ j → weights.get? j = some Dim.unknown →
          out.get? j = some Dim.unknown)) ∧
      (indices.length = 0 →
        ∀ j, 1 ≤ j → weights.get? j = some Dim.unknown →
          out.get? (j - 1) = some Dim.unknown)) ∧
    (∀ (node : Node) (out weights : Shape),
      EmbeddingSegmentsSum.infer node = Except.ok out →
      (getPort node 0).shape = some weights →
      ∀ j, 1 ≤ j → weights.get? j = some Dim.unknown →
        out.get? j = some Dim.unknown) := by
  refine ⟨?_, ?_, ?_⟩
  · intro node out weights offsets hok hw ho
    obtain ⟨w, o, hw', hw2, ho', hol, hout⟩ := offsetsSum_ok_inv node out hok
    rw [hw] at hw'
    rw [ho] at ho'
    have hww : weights = w := Option.some.inj hw'
    have hoo : offsets = o := Option.some.inj ho'
    rw [← hww] at hw2 hout
    rw [← hoo] at hol hout
    have htake : offsets.take 1 = offsets := List.take_of_length_le (by omega)
    constructor
    · intro hu
      rw [hout, htake, List.get?_append (by omega), hu]
    · intro j hj hu
      rw [hout, get?_lead_append _ _ (by rw [htake]; exact hol) j hj, hu]
  · intro node out weights indices hok hw hi
    obtain ⟨w, i, hw', hw2, hi', hout⟩ := packedSum_ok_inv node out hok
    rw [hw] at hw'
    rw [hi] at hi'
    have hww : weights = w := Option.some.inj hw'
    have hii : indices = i := Option.some.inj hi'
    rw [← hww] at hw2 hout
    rw [← hii] at hout
    constructor
    · intro hir
      have hlen : (indices.take 1).length = 1 := by
        simp [List.length_take]
        omega
      constructor
      · intro hu
        rw [hout, List.get?_append (by omega), List.get?_take (by omega), hu]
      · intro j hj hu
        rw [hout, get?_lead_append _ _ hlen j hj, hu]
    · intro hir j hj hu
      have hnil : indices = [] := List.length_eq_zero.mp hir
      rw [hout, hnil]
      simp only [List.take_nil, List.nil_append]
      rw [List.get?_drop]
      have hidx : 1 + (j - 1) = j := by omega
      rw [hidx, hu]
  · intro node out weights hok hw j hj hu
    obtain ⟨w, v, hw', hw2, hv, hout⟩ := segmentsSum_ok_inv node out hok
    rw [hw] at hw'
    have hww : weights = w := Option.some.inj hw'
    rw [← hww] at hw2 hout
    rw [hout, ← List.singleton_append,
      get?_lead_append _ _ (by rfl) j hj, hu]

/-- Node for C4 witness: OffsetsSum with weights [1000, unknown] and
offsets [unknown]. -/
def nodeOffsetsUnknown : Node :=
  [⟨true, some [Dim.known 1000, Dim.unknown], none⟩,
   ⟨true, some [Dim.known 10], none⟩,
   ⟨true, some [Dim.unknown], none⟩]

/-- C4 witness: on an OffsetsSum node with an unknown offsets length and
an unknown trailing weights dimension both output dimensions are unknown,
and on the rank-0-indices PackedSum node the unknown weights dimension 1
appears, still unknown, at output position 0. -/
theorem unknown_dimension_propagation_witness :
    (EmbeddingBagOffsetsSum.infer nodeOffsetsUnknown =
      Except.ok [Dim.unknown, Dim.unknown] ∧
     ([Dim.unknown, Dim.unknown] : Shape).get? 0 = some Dim.unknown ∧
     ([Dim.unknown, Dim.unknown] : Shape).get? 1 = some Dim.unknown) ∧
    (EmbeddingBagPackedSum.infer nodePackedRank0Unknown =
      Except.ok [Dim.unknown] ∧
     ([Dim.unknown] : Shape).get? 0 = some Dim.unknown) := by
  have h := unknown_dimension_propagation.1 nodeOffsetsUnknown
    [Dim.unknown, Dim.unknown] [Dim.known 1000, Dim.unknown] [Dim.unknown]
    rfl rfl rfl
  have hp := unknown_dimension_propagation.2.1 nodePackedRank0Unknown
    [Dim.unknown] [Dim.known 1000, Dim.unknown] []
    rfl rfl rfl
  exact ⟨⟨rfl, h.1 rfl, h.2 1 (by decide) rfl⟩,
    ⟨rfl, hp.2 rfl 1 (by decide) rfl⟩⟩
